import Mathlib

/-!
Verification development for the tool-transport layer and agent orchestration
loop of the smartLLMQuotingAgent server.

The definitions below are a shallow embedding of two source modules:

* the MCP service (class MCPService): connection registry, tool registry,
  the synchronous guard section of invokeTool, the per-invocation response
  listener plus its 30-second timeout, updateTools, and connectToServer;
* the agent service (class AgentService): the tool-call extraction pipeline
  of executeToolsFromResponse (fenced tool_code blocks, the call-expression
  regex, the key="value" parameter regex), the tool-execution loop, the
  post-tool synthesis fallback, and processMessage with its demo branch.

External effects (child processes, sockets, HTTP, the LLM SDK) are modelled
at their boundary: transport writes become an explicit output list, the
model capability becomes a function parameter, and the asynchronous stdout
stream of a worker becomes an explicit list of timed events.
-/

deriving instance DecidableEq for Except

/-- JavaScript Map lookup (Map.get): first entry with the given key, if any. -/
def mapGet {α : Type} : List (String × α) → String → Option α
  | [], _ => none
  | kv :: rest, k => if kv.1 = k then some kv.2 else mapGet rest k

/-- JavaScript Map insertion (Map.set): overwrite in place when the key is
already present (keeping its position), append otherwise. -/
def mapSet {α : Type} : List (String × α) → String → α → List (String × α)
  | [], k, v => [(k, v)]
  | kv :: rest, k, v => if kv.1 = k then (k, v) :: rest else kv :: mapSet rest k v

/-- Static description of one configured MCP server, from the fields that
connectToServer destructures: id, protocol, command, args for stdio servers,
host and port for ws servers, plus the display name used by getServerStatus. -/
structure ServerConfig where
  id : String
  protocol : String
  command : String
  args : List String
  host : String
  port : Nat
  name : String
deriving DecidableEq

/-- One entry of MCPService.connections. hasTransport states that the
process (stdio) or ws (ws) handle is non-null; wsReady states that the
WebSocket readyState equals 1. -/
structure Conn where
  status : String
  protocol : String
  config : ServerConfig
  hasTransport : Bool
  wsReady : Bool
deriving DecidableEq

/-- One entry of MCPService.tools, as built by updateTools: the advertised
tool spread together with serverId and fullName. -/
structure ToolEntry where
  name : String
  description : String
  serverId : String
  fullName : String
deriving DecidableEq

/-- One advertised tool inside a tools/list notification (message.params.tools). -/
structure ToolAdv where
  name : String
  description : String
deriving DecidableEq

/-- The two registries owned by MCPService: this.connections and this.tools. -/
structure MCPState where
  connections : List (String × Conn)
  tools : List (String × ToolEntry)
deriving DecidableEq

/-- MCPService.updateTools: for each advertised tool, set
tools[serverId + ":" + name] to the descriptor. The loop only inserts or
overwrites entries; it removes nothing. -/
def updateTools (st : MCPState) (serverId : String) (advs : List ToolAdv) : MCPState :=
  { st with
    tools := advs.foldl
      (fun m adv =>
        mapSet m (serverId ++ ":" ++ adv.name)
          ⟨adv.name, adv.description, serverId, serverId ++ ":" ++ adv.name⟩)
      st.tools }

/-- The JSON-RPC envelope that invokeTool hands to sendMessage
(jsonrpc, id, method "tools/call", params.name, params.arguments). -/
structure OutMsg where
  jsonrpc : String
  id : Nat
  method : String
  toolName : String
  arguments : List (String × String)
deriving DecidableEq

/-- MCPService.sendMessage restricted to one connection: the list of frames
actually written to the transport. A stdio connection writes when its process
handle is non-null; a ws connection writes when its socket exists and its
readyState is 1; otherwise nothing is written. -/
def sendMessageWrites (conn : Conn) (m : OutMsg) : List OutMsg :=
  if conn.protocol = "stdio" && conn.hasTransport then [m]
  else if conn.protocol = "ws" && conn.hasTransport && conn.wsReady then [m]
  else []

/-- The synchronous section of MCPService.invokeTool: the tool lookup, the
connection-status guard, the choice of messageId (Date.now(), passed here as
now), and the tools/call send. Returns the settlement of the guard section
(the assigned request id on success) together with every frame written to a
transport. Both error branches throw before any send. -/
def invokeToolStart (st : MCPState) (toolName : String)
    (args : List (String × String)) (now : Nat) : Except String Nat × List OutMsg :=
  match mapGet st.tools toolName with
  | none => (Except.error ("Tool not found: " ++ toolName), [])
  | some tool =>
    match mapGet st.connections tool.serverId with
    | none => (Except.error ("MCP server " ++ tool.serverId ++ " not connected"), [])
    | some conn =>
      if conn.status = "connected" then
        (Except.ok now, sendMessageWrites conn ⟨"2.0", now, "tools/call", tool.name, args⟩)
      else
        (Except.error ("MCP server " ++ tool.serverId ++ " not connected"), [])

/-- The request id invokeTool assigns when its guards pass. -/
def requestIdOf (st : MCPState) (toolName : String) (now : Nat) : Option Nat :=
  match (invokeToolStart st toolName [] now).1 with
  | Except.ok i => some i
  | Except.error _ => none

/-- The transport-opening side effect of MCPService.connectToServer. -/
inductive SpawnAction where
  | spawnProcess (command : String) (args : List String)
  | dialSocket (host : String) (port : Nat)
deriving DecidableEq

/-- The synchronous body of MCPService.connectToServer: it inspects only the
protocol of the given config, spawns a child process (stdio) or dials a
WebSocket (ws) unconditionally, and registers event handlers. The connections
map is untouched until one of those handlers fires; no existing connection is
consulted. An unknown protocol matches neither branch and does nothing. -/
def connectToServer (st : MCPState) (cfg : ServerConfig) : MCPState × List SpawnAction :=
  if cfg.protocol = "stdio" then (st, [SpawnAction.spawnProcess cfg.command cfg.args])
  else if cfg.protocol = "ws" then (st, [SpawnAction.dialSocket cfg.host cfg.port])
  else (st, [])

/-- The childProcess spawn handler registered by connectToServer for a stdio
server: it replaces the connection entry with a fresh connected one. -/
def handleSpawnEvent (st : MCPState) (cfg : ServerConfig) : MCPState :=
  { st with connections := mapSet st.connections cfg.id ⟨"connected", "stdio", cfg, true, false⟩ }

/-- One data event on the worker stream observed by the per-invocation
response listener. junk is a frame on which JSON.parse throws (logged and
ignored). resp carries the parsed id when it is a number (a missing or
non-numeric id can never be strictly equal to the numeric messageId and is
collapsed to none), the error field (when present it is a JSON-RPC error
object, hence truthy, and carries the given message), and the result value. -/
inductive StdoutData (α : Type) where
  | junk
  | resp (id : Option Nat) (error : Option String) (result : α)
deriving DecidableEq

/-- Whether the per-invocation listener would recognise this frame as the
response to request messageId. -/
def matchesId {α : Type} (messageId : Nat) : StdoutData α → Bool
  | StdoutData.junk => false
  | StdoutData.resp rid _ _ => rid = some messageId

/-- Observable state of one in-flight invocation: the promise settlement
(time and value; a promise settles at most once, the first resolve or reject
wins), the time at which the response listener was detached, and whether
clearTimeout has been called on the 30-second timer. -/
structure PendingState (α : Type) where
  settled : Option (Nat × Except String α)
  removedAt : Option Nat
  cleared : Bool
deriving DecidableEq

/-- The per-invocation message handler of invokeTool (identical logic in the
stdio and ws branches), applied to one data event at time t. Once the
listener has been detached the handler is no longer invoked. On a frame whose
id strictly equals messageId the handler clears the timer, detaches itself,
and rejects with error.message when the error field is present (truthy),
otherwise resolves with the result; resolving or rejecting an already
settled promise has no effect. Every other frame is ignored. -/
def respStep {α : Type} (messageId : Nat) (s : PendingState α) (t : Nat)
    (d : StdoutData α) : PendingState α :=
  if s.removedAt.isSome then s
  else
    match d with
    | StdoutData.junk => s
    | StdoutData.resp rid err result =>
      if rid = some messageId then
        { settled :=
            match s.settled with
            | some x => some x
            | none =>
              some (t, match err with
                       | some m => Except.error m
                       | none => Except.ok result),
          removedAt := some t,
          cleared := true }
      else s

/-- The setTimeout callback of invokeTool, firing 30000 ms after the request
was issued unless clearTimeout ran first: it only rejects the promise (if it
is still pending) with the distinct timeout error; it does not detach the
response listener. -/
def fireTimeout {α : Type} (toolName : String) (s : PendingState α) : PendingState α :=
  if s.cleared then s
  else
    { s with settled :=
        match s.settled with
        | some x => some x
        | none => some (30000, Except.error ("Tool invocation timeout: " ++ toolName)) }

/-- One full invocation lifecycle after the guards of invokeTool passed:
the listener processes the timed stream events in order, with the timer
firing at 30000 between the events before and at-or-after that instant. -/
def runInvocation {α : Type} (messageId : Nat) (toolName : String)
    (events : List (Nat × StdoutData α)) : PendingState α :=
  let before := events.filter (fun e => decide (e.1 < 30000))
  let after := events.filter (fun e => decide (30000 ≤ e.1))
  let s1 := before.foldl (fun s e => respStep messageId s e.1 e.2) ⟨none, none, false⟩
  let s2 := fireTimeout toolName s1
  after.foldl (fun s e => respStep messageId s e.1 e.2) s2

/-- JavaScript \w: ASCII letters, digits and underscore. -/
def isWordChar (c : Char) : Bool := c.isAlpha || c.isDigit || c = '_'

/-- JavaScript \s on the ASCII range (space, tab, line feed, carriage
return, vertical tab, form feed); the inputs of this program are ASCII. -/
def isSpaceJS (c : Char) : Bool :=
  c = ' ' || c = '\t' || c = '\n' || c = '\r' || c = '\x0b' || c = '\x0c'

/-- String.prototype.trim: strip whitespace from both ends. -/
def trimChars (l : List Char) : List Char :=
  ((l.dropWhile isSpaceJS).reverse.dropWhile isSpaceJS).reverse

/-- The backtick character (written by code to keep it out of the source text). -/
def btk : Char := Char.ofNat 96

/-- Match a literal character sequence at the head of the input, returning
the remainder on success. -/
def stripLit : List Char → List Char → Option (List Char)
  | [], l => some l
  | _ :: _, [] => none
  | p :: ps, c :: cs => if c = p then stripLit ps cs else none

/-- Whether the needle occurs somewhere in the haystack
(String.prototype.includes). -/
def containsSub (needle : List Char) : List Char → Bool
  | [] => match needle with | [] => true | _ :: _ => false
  | c :: cs =>
    match stripLit needle (c :: cs) with
    | some _ => true
    | none => containsSub needle cs

/-- Split around the first occurrence of the needle: the part before it and
the part after it. -/
def splitFirstAt (needle : List Char) : List Char → Option (List Char × List Char)
  | [] => (stripLit needle []).map (fun r => ([], r))
  | c :: cs =>
    match stripLit needle (c :: cs) with
    | some r => some ([], r)
    | none => (splitFirstAt needle cs).map (fun p => (c :: p.1, p.2))

/-- Element [1] of JavaScript String.prototype.split(needle): the segment
between the first and second occurrence of the needle (to the end when the
needle occurs once; undefined, i.e. none, when it does not occur). -/
def jsSplitSecondPart (needle s : List Char) : Option (List Char) :=
  match splitFirstAt needle s with
  | none => none
  | some (_, rest) =>
    match splitFirstAt needle rest with
    | none => some rest
    | some (b, _) => some b

/-- The literal the block regex starts with: three backticks then tool_code. -/
def tcLit : List Char := [btk, btk, btk, 't', 'o', 'o', 'l', '_', 'c', 'o', 'd', 'e']

/-- Recognise the closing delimiter (a line feed followed by three backticks)
at the head of the input, returning what follows it. -/
def closeFence : List Char → Option (List Char)
  | c1 :: c2 :: c3 :: c4 :: r =>
    if c1 = '\n' && c2 = btk && c3 = btk && c4 = btk then some r else none
  | _ => none

/-- The lazy capture of the block regex, with at least one character already
accumulated: stop at the first closing delimiter; any backtick before it
makes the whole attempt fail (the capture admits no backtick). -/
def lazyCapture (acc : List Char) : List Char → Option (List Char × List Char)
  | [] => none
  | c :: cs =>
    match closeFence (c :: cs) with
    | some r => some (acc.reverse, r)
    | none => if c = btk then none else lazyCapture (c :: acc) cs

/-- The lazy one-or-more capture of the block regex: the first character must
exist and not be a backtick, then scan for the closing delimiter. -/
def lazyContent : List Char → Option (List Char × List Char)
  | [] => none
  | c :: cs => if c = btk then none else lazyCapture [c] cs

/-- Ascending positions of line feeds inside the maximal whitespace run at
the head of the input: the candidate split points of the greedy whitespace
prefix of the block regex (which must end at a line feed). -/
def nlCand : List Char → List Nat
  | [] => []
  | c :: cs =>
    if isSpaceJS c then
      if c = '\n' then 0 :: (nlCand cs).map (· + 1)
      else (nlCand cs).map (· + 1)
    else []

/-- Try the candidate split points in the given order (the caller passes them
longest first, matching the greedy whitespace quantifier with backtracking);
each candidate consumes the whitespace up to and including its line feed and
then attempts the lazy capture. -/
def tryCands : List Nat → List Char → Option (List Char × List Char)
  | [], _ => none
  | n :: ns, r =>
    match lazyContent (r.drop (n + 1)) with
    | some res => some res
    | none => tryCands ns r

/-- Match one fenced block of the extraction regex of
AgentService.executeToolsFromResponse at the head of the input: the literal
three-backticks-tool_code, greedy whitespace ending at a line feed, the lazy
non-backtick capture, and the closing line-feed-plus-three-backticks.
Returns the capture and the remainder after the whole match. -/
def tryBlock (l : List Char) : Option (List Char × List Char) :=
  match stripLit tcLit l with
  | none => none
  | some r => tryCands (nlCand r).reverse r

/-- The global exec loop of the block regex: successive non-overlapping
leftmost matches; on failure at a position the scan advances one character.
The fuel is the input length; every step consumes at least one character. -/
def scanBlocksAux : Nat → List Char → List (List Char)
  | 0, _ => []
  | _ + 1, [] => []
  | fuel + 1, c :: cs =>
    match tryBlock (c :: cs) with
    | some (content, rest) => content :: scanBlocksAux fuel rest
    | none => scanBlocksAux fuel cs

/-- All captures of the tool_code block regex over the model output. -/
def scanBlocks (l : List Char) : List (List Char) := scanBlocksAux l.length l

/-- A nonempty maximal run of characters satisfying p at the head of the
input, with the remainder; none when the first character fails p. This is
exactly the behaviour of a greedy one-or-more character class followed by a
literal the class excludes: shortening the run can never help, so the
maximal run is the only candidate. -/
def takeRun (p : Char → Bool) (l : List Char) : Option (List Char × List Char) :=
  match l.takeWhile p with
  | [] => none
  | w => some (w, l.dropWhile p)

/-- Match the call-expression regex of executeToolsFromResponse at the head
of the input: a word run, an opening parenthesis, then the greedy any-run
(which cannot cross a line feed) backtracked to the last closing parenthesis
on that line. Returns the tool name and the raw argument text. -/
def tryCallAt (l : List Char) : Option (List Char × List Char) :=
  match takeRun isWordChar l with
  | none => none
  | some (k, r1) =>
    match r1 with
    | '(' :: r2 =>
      let line := r2.takeWhile (fun c => !(c = '\n'))
      match line.reverse.dropWhile (fun c => !(c = ')')) with
      | ')' :: restRev => some (k, restRev.reverse)
      | _ => none
    | _ => none

/-- The first (leftmost) call-expression match in a block, the behaviour of
the non-global match call on the trimmed block content. -/
def firstCall : List Char → Option (List Char × List Char)
  | [] => none
  | c :: cs =>
    match tryCallAt (c :: cs) with
    | some r => some r
    | none => firstCall cs

/-- Match the parameter regex of executeToolsFromResponse at the head of the
input: a word run for the key, a literal equals sign and double quote, a
nonempty run of non-quote characters for the value, and the closing quote. -/
def tryParamAt (l : List Char) : Option (List Char × List Char × List Char) :=
  match takeRun isWordChar l with
  | none => none
  | some (k, r1) =>
    match r1 with
    | c1 :: c2 :: r2 =>
      if c1 = '=' && c2 = '"' then
        match takeRun (fun c => !(c = '"')) r2 with
        | none => none
        | some (v, r3) =>
          match r3 with
          | c3 :: r4 => if c3 = '"' then some (k, v, r4) else none
          | [] => none
      else none
    | _ => none

/-- The global exec loop of the parameter regex over the raw argument text;
fuel as in scanBlocksAux. -/
def parseParamsAux : Nat → List Char → List (List Char × List Char)
  | 0, _ => []
  | _ + 1, [] => []
  | fuel + 1, c :: cs =>
    match tryParamAt (c :: cs) with
    | some (k, v, rest) => (k, v) :: parseParamsAux fuel rest
    | none => parseParamsAux fuel cs

/-- All key and value captures of the parameter regex, in match order. -/
def parseParams (l : List Char) : List (List Char × List Char) :=
  parseParamsAux l.length l

/-- Successive assignment of the captured pairs onto the params object:
a later capture with the same key overwrites the earlier one. -/
def paramsObj (pairs : List (List Char × List Char)) : List (String × String) :=
  pairs.foldl (fun m p => mapSet m (String.mk p.1) (String.mk p.2)) []

/-- The argument value recorded in a trace entry: a parsed parameter mapping
for calls executed by the text pipeline, the raw toolInput for entries taken
from the intermediate steps of the LangChain executor. -/
inductive TInput where
  | params (m : List (String × String))
  | raw (s : String)
deriving DecidableEq

/-- One entry of the toolsUsed trace. -/
structure ToolUse where
  tool : String
  input : TInput
  output : String
deriving DecidableEq

/-- One entry of the toolResults list fed back to the model. -/
structure ToolRes where
  tool : String
  result : String
deriving DecidableEq

/-- The available tools at execution time: name paired with the observable
behaviour of the tool function (its result text for given arguments); the
function already absorbs the try and catch around the call, so it is total. -/
def ToolList : Type := List (String × (List (String × String) → String))

/-- The tool-execution loop of executeToolsFromResponse over the extracted
calls: parse each call expression (a block whose content has no call match
contributes nothing), parse its parameters (an empty raw argument text is
falsy and yields the empty object), execute the first tool of that name, and
record the trace entry; an unknown name records only a synthetic not-found
result. Returns the toolsUsed trace and the toolResults list. -/
def runCalls (tools : ToolList) (calls : List (List Char)) : List ToolUse × List ToolRes :=
  calls.foldl
    (fun acc call =>
      match firstCall call with
      | none => acc
      | some (nameCs, argsCs) =>
        let toolName := String.mk nameCs
        let params := if argsCs = [] then [] else paramsObj (parseParams argsCs)
        match tools.find? (fun t => t.1 = toolName) with
        | some t =>
          (acc.1 ++ [⟨toolName, TInput.params params, t.2 params⟩],
           acc.2 ++ [⟨toolName, t.2 params⟩])
        | none =>
          (acc.1, acc.2 ++ [⟨toolName, "Tool " ++ toolName ++ " not found"⟩]))
    ([], [])

/-- The trimmed captures of the block regex over a model output string. -/
def toolCallsOf (resp : String) : List (List Char) :=
  (scanBlocks resp.data).map trimChars

/-- The context prompt built for the follow-up model call, from the original
user question and the rendered tool results. -/
def contextPromptFor (originalMessage : String) (results : List ToolRes) : String :=
  let t := String.intercalate "\n\n"
    (results.map (fun tr => "Tool: " ++ tr.tool ++ "\nResult: " ++ tr.result))
  "Original user question: \"" ++ originalMessage ++
    "\"\n\nI executed the following tools and got these results:\n\n" ++ t ++
    "\n\nPlease provide a natural, helpful response to the user based on these tool results. Be conversational and informative."

/-- The value returned by executeToolsFromResponse when it does not return
null: the response text, the toolsUsed trace, and the reasoning lines. -/
structure OrchResult where
  response : String
  toolsUsed : List ToolUse
  reasoning : List String
deriving DecidableEq

/-- AgentService.executeToolsFromResponse. Extraction of the fenced blocks,
the zero-calls early null return, the tool-execution loop, then the
synthesis step: hasModel states that llmService.getModel(provider) returns
(it throws for an unconfigured provider, which the outer catch turns into a
null return); synthesize is the follow-up model capability, erring when the
call throws, in which case the catch falls back to the raw response text
while keeping the gathered trace. -/
def executeToolsFromResponse (resp : String) (tools : ToolList)
    (originalMessage : String) (synthesize : String → Except Unit String)
    (hasModel : Bool) : Option OrchResult :=
  if toolCallsOf resp = [] then none
  else if hasModel = false then none
  else
    some
      { response :=
          match synthesize (contextPromptFor originalMessage (runCalls tools (toolCallsOf resp)).2) with
          | Except.ok c => c
          | Except.error _ => resp,
        toolsUsed := (runCalls tools (toolCallsOf resp)).1,
        reasoning :=
          [match synthesize (contextPromptFor originalMessage (runCalls tools (toolCallsOf resp)).2) with
           | Except.ok _ =>
             "Executed " ++ toString (runCalls tools (toolCallsOf resp)).1.length ++
               " tool(s) and processed results with LLM"
           | Except.error _ =>
             "Executed " ++ toString (runCalls tools (toolCallsOf resp)).1.length ++
               " tool(s) but LLM processing failed"] }

/-- One action record inside an intermediate step of the agent executor. -/
structure AgentAction where
  tool : String
  toolInput : String
deriving DecidableEq

/-- One intermediate step of the agent executor. -/
structure Step where
  action : Option AgentAction
  observation : String
deriving DecidableEq

/-- The outcome of agentExecutor.invoke: the output text and the
intermediate steps, or the thrown error message. -/
structure AgentOut where
  output : String
  intermediateSteps : List Step
deriving DecidableEq

/-- AgentService.extractToolsUsed: the steps carrying a truthy action.tool,
mapped to trace entries. -/
def extractToolsUsed (steps : List Step) : List ToolUse :=
  (steps.filter
      (fun st => match st.action with
                 | some a => !(a.tool = "")
                 | none => false)).map
    (fun st => match st.action with
               | some a => ⟨a.tool, TInput.raw a.toolInput, st.observation⟩
               | none => ⟨"", TInput.raw "", st.observation⟩)

/-- The reasoning field of a processMessage result: a list of strings on the
text-pipeline and demo paths, the raw intermediate steps otherwise. -/
inductive RTrace where
  | strs (l : List String)
  | steps (l : List Step)
deriving DecidableEq

/-- The JSON value returned by AgentService.processMessage, field for field
(the timestamp, an external clock read, is omitted). Fields that a given
branch does not set are none. -/
structure PMResult where
  success : Bool
  response : Option String
  error : Option String
  reasoning : Option RTrace
  toolsUsed : Option (List ToolUse)
  provider : String
deriving DecidableEq

/-- The demo-mode response text, with the user message interpolated. -/
def demoText (message : String) : String :=
  "I\x27m currently in demo mode. To use the full AI agent capabilities, please set up your API keys in the .env file:\n\n**Required API Keys:**\n- OPENAI_API_KEY for GPT-4\n- ANTHROPIC_API_KEY for Claude\n- GOOGLE_API_KEY for Gemini\n\n**Your message:** \"" ++
    message ++
    "\"\n\nOnce you add the API keys and restart the server, I\x27ll be able to process your requests using the selected AI model and available MCP tools."

/-- The demo-mode return value of processMessage. -/
def demoResult (message : String) : PMResult :=
  ⟨true, some (demoText message), none, some (RTrace.strs []), some [], "demo"⟩

/-- The error-message rewriting of the outer catch of processMessage. -/
def massageErr (m : String) : String :=
  if containsSub ("gemini-pro is not found").data m.data then
    "The Gemini model \"gemini-pro\" is deprecated. Please update to use \"gemini-1.5-pro\" or \"gemini-1.5-flash\"."
  else if containsSub ("API key").data m.data then
    "API key issue detected. Please check your .env file configuration."
  else if containsSub ("404").data m.data then
    "Model not found or API endpoint issue. Please check the model name and API configuration."
  else m

/-- AgentService.processMessage. agents lists the providers present in the
agents map; invokeOutcome is the behaviour of the stored executor (output
and intermediate steps, or the thrown message). When the provider has no
agent: the demo result if the map is empty, otherwise the thrown
agent-not-available error lands in the outer catch. When the agent ran, the
text pipeline takes precedence; a parse failure of the LangChain output is
recovered by splitting the error message and re-running the pipeline on the
recovered raw output. -/
def processMessage (agents : List String) (provider message : String)
    (invokeOutcome : Except String AgentOut) (tools : ToolList)
    (hasModel : Bool) (synthesize : String → Except Unit String) : PMResult :=
  if agents.contains provider then
    match invokeOutcome with
    | Except.ok result =>
      match executeToolsFromResponse result.output tools message synthesize hasModel with
      | some tr => ⟨true, some tr.response, none, some (RTrace.strs tr.reasoning), some tr.toolsUsed, provider⟩
      | none =>
        ⟨true, some result.output, none, some (RTrace.steps result.intermediateSteps),
          some (extractToolsUsed result.intermediateSteps), provider⟩
    | Except.error agentMsg =>
      if containsSub ("Could not parse LLM output").data agentMsg.data then
        match jsSplitSecondPart ("Could not parse LLM output: ").data agentMsg.data with
        | some lrCs =>
          if lrCs = [] then
            ⟨false, none, some ("Agent execution failed: " ++ agentMsg), none, none, provider⟩
          else
            match executeToolsFromResponse (String.mk (trimChars lrCs)) tools message synthesize hasModel with
            | some tr => ⟨true, some tr.response, none, some (RTrace.strs tr.reasoning), some tr.toolsUsed, provider⟩
            | none => ⟨true, some (String.mk (trimChars lrCs)), none, some (RTrace.strs []), some [], provider⟩
        | none => ⟨false, none, some ("Agent execution failed: " ++ agentMsg), none, none, provider⟩
      else ⟨false, none, some ("Agent execution failed: " ++ agentMsg), none, none, provider⟩
  else
    if agents = [] then demoResult message
    else ⟨false, none, some (massageErr ("Agent not available for provider: " ++ provider)), none, none, provider⟩

/-- A configured stdio server used by the concrete instances below. -/
def cfgS : ServerConfig := ⟨"s", "stdio", "run-worker", ["--serve"], "", 0, "Worker S"⟩

/-- A connected stdio connection for cfgS. -/
def connS : Conn := ⟨"connected", "stdio", cfgS, true, false⟩

/-- A disconnected stdio connection for cfgS. -/
def connSDown : Conn := ⟨"disconnected", "stdio", cfgS, false, false⟩

/-- A registry state with one tool s:a owned by the connected server s. -/
def stLive : MCPState := ⟨[("s", connS)], [("s:a", ⟨"a", "demo tool", "s", "s:a"⟩)]⟩

/-- A registry state with one tool s:a owned by the disconnected server s. -/
def stDown : MCPState := ⟨[("s", connSDown)], [("s:a", ⟨"a", "demo tool", "s", "s:a"⟩)]⟩

/-- A registry state where worker W advertised tool a earlier. -/
def stWa : MCPState := ⟨[], [("W:a", ⟨"a", "old tool", "W", "W:a"⟩)]⟩

/-- A configured stdio server with id W. -/
def cfgW : ServerConfig := ⟨"W", "stdio", "run-worker", ["--serve"], "", 0, "Worker W"⟩

/-- A state whose connection for W is already connected. -/
def stWConnected : MCPState := ⟨[("W", ⟨"connected", "stdio", cfgW, true, false⟩)], []⟩

/-- A model output with two tool-call expressions, each inside its own
tool_code fenced block. -/
def respPR : String :=
  "```tool_code\nget_weather(city=\"Paris\")\n```\n\n```tool_code\nget_weather(city=\"Rome\")\n```"

/-- The same two tool-call expressions as bare text, without fenced blocks. -/
def respBare : String := "get_weather(city=\"Paris\")\nget_weather(city=\"Rome\")"

/-- An event stream delivering a matching response only after the timeout. -/
def evLate : List (Nat × StdoutData String) := [(40000, StdoutData.resp (some 7) none "late")]

/-- mapGet after mapSet: the set key now maps to the new value, every other
key is untouched. -/
theorem mapGet_mapSet {α : Type} (m : List (String × α)) (k k' : String) (v : α) :
    mapGet (mapSet m k v) k' = if k = k' then some v else mapGet m k' := by
  induction m with
  | nil => by_cases h : k = k' <;> simp [mapSet, mapGet, h]
  | cons kv rest ih =>
    by_cases h1 : kv.1 = k <;> by_cases h2 : k = k' <;>
      simp [mapSet, mapGet, h1, h2, ih] <;> simp_all [mapGet]

/-- A frame that does not match the request id leaves the pending state alone. -/
theorem respStep_skip {α : Type} (mid : Nat) (s : PendingState α) (t : Nat)
    (d : StdoutData α) (h : matchesId mid d = false) : respStep mid s t d = s := by
  cases d with
  | junk => simp [respStep]
  | resp rid err res =>
    simp only [matchesId, decide_eq_false_iff_not] at h
    simp [respStep, h]

/-- A run of non-matching frames leaves the pending state alone. -/
theorem foldl_skip {α : Type} (mid : Nat) (l : List (Nat × StdoutData α))
    (s : PendingState α) (h : ∀ e ∈ l, matchesId mid e.2 = false) :
    l.foldl (fun s e => respStep mid s e.1 e.2) s = s := by
  induction l generalizing s with
  | nil => rfl
  | cons e rest ih =>
    rw [List.foldl_cons, respStep_skip mid s e.1 e.2 (h e (by simp))]
    exact ih s (fun e' he' => h e' (List.mem_cons_of_mem e he'))

/-- Once the listener is detached, no further frame is observed. -/
theorem respStep_removed {α : Type} (mid : Nat) (s : PendingState α) (t : Nat)
    (d : StdoutData α) (h : s.removedAt.isSome) : respStep mid s t d = s := by
  simp [respStep, h]

/-- Once the listener is detached, no run of frames is observed. -/
theorem foldl_removed {α : Type} (mid : Nat) (l : List (Nat × StdoutData α))
    (s : PendingState α) (h : s.removedAt.isSome) :
    l.foldl (fun s e => respStep mid s e.1 e.2) s = s := by
  induction l with
  | nil => rfl
  | cons e rest ih => rw [List.foldl_cons, respStep_removed mid s e.1 e.2 h, ih]

/-- A settled promise keeps its value through any single frame. -/
theorem respStep_settled {α : Type} (mid : Nat) (s : PendingState α) (t : Nat)
    (d : StdoutData α) (x : Nat × Except String α) (h : s.settled = some x) :
    (respStep mid s t d).settled = some x := by
  cases d with
  | junk => by_cases hr : s.removedAt.isSome <;> simp [respStep, hr, h]
  | resp rid err res =>
    by_cases hr : s.removedAt.isSome
    · simp [respStep, hr, h]
    · by_cases hid : rid = some mid <;> simp [respStep, hr, hid, h]

/-- A settled promise keeps its value through any run of frames. -/
theorem foldl_settled {α : Type} (mid : Nat) (l : List (Nat × StdoutData α))
    (s : PendingState α) (x : Nat × Except String α) (h : s.settled = some x) :
    (l.foldl (fun s e => respStep mid s e.1 e.2) s).settled = some x := by
  induction l generalizing s with
  | nil => exact h
  | cons e rest ih =>
    rw [List.foldl_cons]
    exact ih _ (respStep_settled mid s e.1 e.2 x h)

/-- A matching frame observed by a still-attached listener detaches it at
that instant. -/
theorem respStep_match_removedAt {α : Type} (mid : Nat) (s : PendingState α)
    (t : Nat) (d : StdoutData α) (hm : matchesId mid d = true)
    (hr : s.removedAt = none) : (respStep mid s t d).removedAt = some t := by
  cases d with
  | junk => simp [matchesId] at hm
  | resp rid err res =>
    simp only [matchesId, decide_eq_true_eq] at hm
    simp [respStep, hr, hm]

/-- C2 (confirmed). For every in-flight invocation with request id I: when an
incoming message with id equal to I arrives (here: the first matching frame,
delivered before the timeout), if the message carries an error field the
promise is rejected with that error message, otherwise it is resolved with
exactly the result value V of the message. -/
theorem C2_matching_response_settles {α : Type} (I t : Nat) (nm : String)
    (pre post : List (Nat × StdoutData α)) (err : Option String) (V : α)
    (hpre : ∀ e ∈ pre, e.1 < 30000 ∧ matchesId I e.2 = false)
    (ht : t < 30000) :
    (runInvocation I nm (pre ++ (t, StdoutData.resp (some I) err V) :: post)).settled
      = some (t, match err with
                 | some m => Except.error m
                 | none => Except.ok V) := by
  have hfp : pre.filter (fun e => decide (e.1 < 30000)) = pre :=
    List.filter_eq_self.mpr (fun e he => by simpa using (hpre e he).1)
  have hfq : pre.filter (fun e => decide (30000 ≤ e.1)) = [] :=
    List.filter_eq_nil_iff.mpr (fun e he => by simpa using Nat.not_le.mpr (hpre e he).1)
  have h1 : (decide (t < 30000)) = true := decide_eq_true ht
  have h2 : (decide (30000 ≤ t)) = false := decide_eq_false (Nat.not_le.mpr ht)
  cases err with
  | none =>
    simp only [runInvocation, List.filter_append, hfp, hfq, List.filter_cons, h1, h2,
      Bool.false_eq_true, if_true, if_false, List.nil_append]
    rw [List.foldl_append, foldl_skip I pre _ (fun e he => (hpre e he).2), List.foldl_cons]
    rw [show respStep I (⟨none, none, false⟩ : PendingState α) t
          (StdoutData.resp (some I) none V) = ⟨some (t, Except.ok V), some t, true⟩ from by
        simp [respStep]]
    rw [foldl_removed I (post.filter (fun e => decide (e.1 < 30000)))
        (⟨some (t, Except.ok V), some t, true⟩ : PendingState α) (by simp)]
    rw [show fireTimeout nm (⟨some (t, Except.ok V), some t, true⟩ : PendingState α)
          = ⟨some (t, Except.ok V), some t, true⟩ from by simp [fireTimeout]]
    rw [foldl_removed I (post.filter (fun e => decide (30000 ≤ e.1)))
        (⟨some (t, Except.ok V), some t, true⟩ : PendingState α) (by simp)]
  | some m =>
    simp only [runInvocation, List.filter_append, hfp, hfq, List.filter_cons, h1, h2,
      Bool.false_eq_true, if_true, if_false, List.nil_append]
    rw [List.foldl_append, foldl_skip I pre _ (fun e he => (hpre e he).2), List.foldl_cons]
    rw [show respStep I (⟨none, none, false⟩ : PendingState α) t
          (StdoutData.resp (some I) (some m) V) = ⟨some (t, Except.error m), some t, true⟩ from by
        simp [respStep]]
    rw [foldl_removed I (post.filter (fun e => decide (e.1 < 30000)))
        (⟨some (t, Except.error m), some t, true⟩ : PendingState α) (by simp)]
    rw [show fireTimeout nm (⟨some (t, Except.error m), some t, true⟩ : PendingState α)
          = ⟨some (t, Except.error m), some t, true⟩ from by simp [fireTimeout]]
    rw [foldl_removed I (post.filter (fun e => decide (30000 ≤ e.1)))
        (⟨some (t, Except.error m), some t, true⟩ : PendingState α) (by simp)]

/-- Witness for C2 at a concrete invocation: a response with id 5 and result
V, delivered at 10 ms, resolves the promise with exactly V at that instant. -/
theorem C2_matching_response_settles_witness :
    (runInvocation 5 "s:a" [(10, StdoutData.resp (some 5) none "V")]).settled
      = some (10, Except.ok "V") :=
  C2_matching_response_settles 5 10 "s:a" [] [] none "V" (by simp) (by decide)

/-- C3 counterexample. For an invocation (request id 7) that never receives a
matching message, the promise is indeed rejected with the distinct timeout
error at exactly 30000 ms — but the per-invocation response listener is NOT
removed upon that timeout rejection: it stays attached forever (removedAt
stays none), contrary to the claim. -/
theorem C3_counterexample :
    (runInvocation 7 "s:a" ([] : List (Nat × StdoutData String))).settled
        = some (30000, Except.error "Tool invocation timeout: s:a")
      ∧ ¬ (runInvocation 7 "s:a" ([] : List (Nat × StdoutData String))).removedAt
        = some 30000
      ∧ (runInvocation 7 "s:a" ([] : List (Nat × StdoutData String))).removedAt = none := by
  decide

/-- C3 (amended). For every invocation whose request id I matches no message
before the 30-second timeout, the promise is rejected with the distinct
timeout error at exactly 30000 ms and not before; the response listener is
not detached by the timeout: if no matching message ever arrives it is never
detached, and if a matching message arrives later (necessarily at or after
30000 ms) the listener detaches at that instant while the already settled
promise keeps its timeout rejection, so the late response has no observable
effect on the caller. -/
theorem C3_timeout_behaviour {α : Type} (I : Nat) (nm : String)
    (events : List (Nat × StdoutData α))
    (h1 : ∀ e ∈ events, e.1 < 30000 → matchesId I e.2 = false) :
    (runInvocation I nm events).settled
        = some (30000, Except.error ("Tool invocation timeout: " ++ nm))
      ∧ ((∀ e ∈ events, matchesId I e.2 = false) →
          (runInvocation I nm events).removedAt = none)
      ∧ (∀ pre t d post, events = pre ++ (t, d) :: post → matchesId I d = true →
          (∀ e ∈ pre, matchesId I e.2 = false) →
          (runInvocation I nm events).removedAt = some t) := by
  have hbefore : ∀ e ∈ events.filter (fun e => decide (e.1 < 30000)),
      matchesId I e.2 = false := by
    intro e he
    rw [List.mem_filter] at he
    exact h1 e he.1 (by simpa using he.2)
  have hft : fireTimeout nm (⟨none, none, false⟩ : PendingState α)
      = ⟨some (30000, Except.error ("Tool invocation timeout: " ++ nm)), none, false⟩ := by
    simp [fireTimeout]
  refine ⟨?_, ?_, ?_⟩
  · simp only [runInvocation]
    rw [foldl_skip I _ _ hbefore, hft]
    exact foldl_settled I _ _ _ rfl
  · intro hall
    simp only [runInvocation]
    rw [foldl_skip I _ _ hbefore, hft]
    rw [foldl_skip I _ _ (fun e he => hall e (List.mem_filter.mp he).1)]
  · intro pre t d post heq hm hpre
    subst heq
    have ht : (30000 ≤ t) := by
      by_contra hlt
      push_neg at hlt
      rw [h1 (t, d) (by simp) hlt] at hm
      exact Bool.false_ne_true hm
    have h2 : (decide (30000 ≤ t)) = true := decide_eq_true ht
    have h3 : (decide (t < 30000)) = false := decide_eq_false (Nat.not_lt.mpr ht)
    simp only [runInvocation]
    rw [foldl_skip I _ _ hbefore, hft]
    simp only [List.filter_append, List.filter_cons, h2, h3, Bool.false_eq_true, if_true,
      if_false]
    rw [List.foldl_append]
    rw [foldl_skip I _ _ (fun e he => hpre e (List.mem_filter.mp he).1), List.foldl_cons]
    have hstep : (respStep I
        (⟨some (30000, Except.error ("Tool invocation timeout: " ++ nm)), none, false⟩ :
          PendingState α) t d).removedAt = some t :=
      respStep_match_removedAt I _ t d hm rfl
    have hsome : (respStep I
        (⟨some (30000, Except.error ("Tool invocation timeout: " ++ nm)), none, false⟩ :
          PendingState α) t d).removedAt.isSome := by rw [hstep]; rfl
    rw [foldl_removed I _ _ hsome]
    exact hstep

/-- Witness for C3 (amended) at a concrete invocation: request id 7, one
matching response at 40000 ms; the promise rejects with the timeout error at
30000 ms and the listener detaches only at 40000 ms. -/
theorem C3_timeout_behaviour_witness :
    (runInvocation 7 "s:a" evLate).settled
        = some (30000, Except.error ("Tool invocation timeout: " ++ "s:a"))
      ∧ (runInvocation 7 "s:a" evLate).removedAt = some 40000 := by
  have h := C3_timeout_behaviour 7 "s:a" evLate (by decide)
  exact ⟨h.1, h.2.2 [] 40000 (StdoutData.resp (some 7) none "late") [] rfl (by decide)
    (by simp)⟩

/-- C1 (confirmed). For every tool id not present in the tool registry,
invokeTool rejects with the tool-not-found error and writes no message to
any transport; and for every tool whose owning connection is absent or has a
status other than connected, invokeTool rejects with the not-connected error,
likewise writing nothing. -/
theorem C1_invoke_guards (st : MCPState) (toolName : String)
    (args : List (String × String)) (now : Nat) :
    (mapGet st.tools toolName = none →
      invokeToolStart st toolName args now
        = (Except.error ("Tool not found: " ++ toolName), []))
    ∧ (∀ tool, mapGet st.tools toolName = some tool →
        mapGet st.connections tool.serverId = none →
        invokeToolStart st toolName args now
          = (Except.error ("MCP server " ++ tool.serverId ++ " not connected"), []))
    ∧ (∀ tool conn, mapGet st.tools toolName = some tool →
        mapGet st.connections tool.serverId = some conn →
        ¬ conn.status = "connected" →
        invokeToolStart st toolName args now
          = (Except.error ("MCP server " ++ tool.serverId ++ " not connected"), [])) := by
  refine ⟨?_, ?_, ?_⟩
  · intro h
    simp [invokeToolStart, h]
  · intro tool h1 h2
    simp [invokeToolStart, h1, h2]
  · intro tool conn h1 h2 h3
    simp [invokeToolStart, h1, h2, h3]

/-- Witness for C1 at concrete registries: an unknown tool id rejects with
tool-not-found and nothing is sent; a tool whose server is disconnected
rejects with not-connected and nothing is sent. -/
theorem C1_invoke_guards_witness :
    invokeToolStart stLive "nosuch" [] 5 = (Except.error ("Tool not found: " ++ "nosuch"), [])
    ∧ invokeToolStart stDown "s:a" [] 5
        = (Except.error ("MCP server " ++ "s" ++ " not connected"), []) :=
  ⟨(C1_invoke_guards stLive "nosuch" [] 5).1 (by decide),
   (C1_invoke_guards stDown "s:a" [] 5).2.2 ⟨"a", "demo tool", "s", "s:a"⟩ connSDown
     (by decide) (by decide) (by decide)⟩

/-- When the guards of invokeTool pass, the assigned request id is exactly
the Date.now() reading taken at the call. -/
theorem invokeToolStart_ok_id (st : MCPState) (nm : String)
    (args : List (String × String)) (now i : Nat)
    (h : (invokeToolStart st nm args now).1 = Except.ok i) : i = now := by
  unfold invokeToolStart at h
  split at h
  · simp at h
  · split at h
    · simp at h
    · split at h
      · simp at h
        exact h.symm
      · simp at h

/-- C4 counterexample. Two invocations of the same connected tool issued in
the same millisecond (Date.now() = 1000 for both) are each assigned request
id 1000 — the two ids coincide, so the claimed uniqueness of concurrently
pending request ids fails. -/
theorem C4_counterexample :
    requestIdOf stLive "s:a" 1000 = some 1000
    ∧ ¬ (∀ i j : Nat, requestIdOf stLive "s:a" 1000 = some i →
          requestIdOf stLive "s:a" 1000 = some j → ¬ i = j) := by
  refine ⟨by decide, fun h => h 1000 1000 (by decide) (by decide) rfl⟩

/-- C4 (amended). The request id of an invocation is exactly its Date.now()
millisecond reading; two concurrently pending invocations therefore receive
distinct ids exactly when they are issued at distinct millisecond readings —
same-millisecond invocations collide. -/
theorem C4_request_ids (st1 st2 : MCPState) (nm1 nm2 : String)
    (a1 a2 : List (String × String)) (n1 n2 i1 i2 : Nat)
    (h1 : (invokeToolStart st1 nm1 a1 n1).1 = Except.ok i1)
    (h2 : (invokeToolStart st2 nm2 a2 n2).1 = Except.ok i2)
    (hne : ¬ n1 = n2) : i1 = n1 ∧ i2 = n2 ∧ ¬ i1 = i2 := by
  have e1 := invokeToolStart_ok_id st1 nm1 a1 n1 i1 h1
  have e2 := invokeToolStart_ok_id st2 nm2 a2 n2 i2 h2
  exact ⟨e1, e2, by rw [e1, e2]; exact hne⟩

/-- Witness for C4 (amended): two invocations of the live tool at distinct
millisecond readings 1000 and 1001 receive the distinct ids 1000 and 1001. -/
theorem C4_request_ids_witness :
    (1000 : Nat) = 1000 ∧ (1001 : Nat) = 1001 ∧ ¬ (1000 : Nat) = 1001 :=
  C4_request_ids stLive stLive "s:a" "s:a" [] [] 1000 1001 1000 1001
    (by decide) (by decide) (by decide)

/-- The updateTools fold leaves every key outside the advertised list alone. -/
theorem updateFold_other (W : String) (L : List ToolAdv)
    (m : List (String × ToolEntry)) (id : String)
    (h : id ∉ L.map (fun adv => W ++ ":" ++ adv.name)) :
    mapGet (L.foldl
        (fun m adv => mapSet m (W ++ ":" ++ adv.name)
          ⟨adv.name, adv.description, W, W ++ ":" ++ adv.name⟩) m) id
      = mapGet m id := by
  induction L generalizing m with
  | nil => rfl
  | cons a rest ih =>
    rw [List.map_cons] at h
    simp only [List.mem_cons, not_or] at h
    rw [List.foldl_cons, ih _ h.2, mapGet_mapSet]
    rw [if_neg (fun he => h.1 he.symm)]

/-- The updateTools fold registers every advertised tool (distinct ids) under
its full id. -/
theorem updateFold_mem (W : String) (L : List ToolAdv)
    (m : List (String × ToolEntry))
    (hnd : (L.map (fun adv => W ++ ":" ++ adv.name)).Nodup)
    (adv : ToolAdv) (hmem : adv ∈ L) :
    mapGet (L.foldl
        (fun m adv => mapSet m (W ++ ":" ++ adv.name)
          ⟨adv.name, adv.description, W, W ++ ":" ++ adv.name⟩) m)
      (W ++ ":" ++ adv.name)
      = some ⟨adv.name, adv.description, W, W ++ ":" ++ adv.name⟩ := by
  induction L generalizing m with
  | nil => cases hmem
  | cons a rest ih =>
    rw [List.map_cons, List.nodup_cons] at hnd
    rw [List.foldl_cons]
    rcases List.mem_cons.mp hmem with rfl | hmem'
    · rw [updateFold_other W rest _ _ hnd.1, mapGet_mapSet, if_pos rfl]
    · exact ih _ hnd.2 hmem'

/-- C5 counterexample. Worker W previously advertised tool a; after
updateTools(W, [b]) the old descriptor W:a is still registered (and b was
added), so the registry does not equal the advertised list — replacement is
not wholesale. -/
theorem C5_counterexample :
    ¬ mapGet (updateTools stWa "W" [⟨"b", "new tool"⟩]).tools "W:a" = none
    ∧ mapGet (updateTools stWa "W" [⟨"b", "new tool"⟩]).tools "W:a"
        = some ⟨"a", "old tool", "W", "W:a"⟩
    ∧ mapGet (updateTools stWa "W" [⟨"b", "new tool"⟩]).tools "W:b"
        = some ⟨"b", "new tool", "W", "W:b"⟩ := by
  decide

/-- C5 (amended). updateTools(W, L) merges instead of replacing: every
registry entry whose id is not among the full ids advertised in L is left
exactly as it was (in particular, tools previously registered for W but
absent from L remain registered), and every tool advertised in L (with
distinct full ids) is afterwards registered under W:name with the expected
descriptor. -/
theorem C5_updateTools_merges (st : MCPState) (W : String) (L : List ToolAdv) :
    (∀ id, id ∉ L.map (fun adv => W ++ ":" ++ adv.name) →
      mapGet (updateTools st W L).tools id = mapGet st.tools id)
    ∧ ((L.map (fun adv => W ++ ":" ++ adv.name)).Nodup →
      ∀ adv ∈ L, mapGet (updateTools st W L).tools (W ++ ":" ++ adv.name)
        = some ⟨adv.name, adv.description, W, W ++ ":" ++ adv.name⟩) := by
  constructor
  · intro id h
    exact updateFold_other W L st.tools id h
  · intro hnd adv hmem
    exact updateFold_mem W L st.tools hnd adv hmem

/-- Witness for C5 (amended) on concrete registries: the unrelated id Z:q is
untouched by updateTools(W, [b]), and W:b is registered afterwards. -/
theorem C5_updateTools_merges_witness :
    mapGet (updateTools stWa "W" [⟨"b", "new tool"⟩]).tools "Z:q"
        = mapGet stWa.tools "Z:q"
    ∧ mapGet (updateTools stWa "W" [⟨"b", "new tool"⟩]).tools ("W" ++ ":" ++ "b")
        = some ⟨"b", "new tool", "W", "W" ++ ":" ++ "b"⟩ :=
  ⟨(C5_updateTools_merges stWa "W" [⟨"b", "new tool"⟩]).1 "Z:q" (by decide),
   (C5_updateTools_merges stWa "W" [⟨"b", "new tool"⟩]).2 (by decide)
     ⟨"b", "new tool"⟩ (by simp)⟩

/-- C8 counterexample. The connection for worker W is already connected, yet
connectToServer on its config is not a no-op: it spawns a second process. -/
theorem C8_counterexample :
    ¬ (connectToServer stWConnected cfgW).2 = []
    ∧ (connectToServer stWConnected cfgW).2
        = [SpawnAction.spawnProcess "run-worker" ["--serve"]] := by
  decide

/-- C8 (amended). connectToServer is not idempotent: even when the worker
already has a connected entry, a stdio config unconditionally spawns a new
process (the synchronous state is untouched, and when the spawn event later
fires the existing connection entry is replaced by a fresh connected one). -/
theorem C8_connect_not_idempotent (st : MCPState) (cfg : ServerConfig) (conn : Conn)
    (hp : cfg.protocol = "stdio")
    (hc : mapGet st.connections cfg.id = some conn)
    (hs : conn.status = "connected") :
    (connectToServer st cfg).2 = [SpawnAction.spawnProcess cfg.command cfg.args]
    ∧ (connectToServer st cfg).1 = st
    ∧ mapGet (handleSpawnEvent st cfg).connections cfg.id
        = some ⟨"connected", "stdio", cfg, true, false⟩ := by
  refine ⟨?_, ?_, ?_⟩
  · simp [connectToServer, hp]
  · simp [connectToServer, hp]
  · simp [handleSpawnEvent, mapGet_mapSet]

/-- Witness for C8 (amended) on the concrete already-connected state. -/
theorem C8_connect_not_idempotent_witness :
    (connectToServer stWConnected cfgW).2
        = [SpawnAction.spawnProcess cfgW.command cfgW.args]
    ∧ (connectToServer stWConnected cfgW).1 = stWConnected
    ∧ mapGet (handleSpawnEvent stWConnected cfgW).connections cfgW.id
        = some ⟨"connected", "stdio", cfgW, true, false⟩ :=
  C8_connect_not_idempotent stWConnected cfgW ⟨"connected", "stdio", cfgW, true, false⟩
    (by decide) (by decide) (by decide)

/-- A successful takeRun yields exactly the nonempty maximal run: the capture
is nonempty and every captured character satisfies the class. -/
theorem takeRun_spec (p : Char → Bool) (l k r : List Char)
    (h : takeRun p l = some (k, r)) : ¬ k = [] ∧ ∀ c ∈ k, p c = true := by
  unfold takeRun at h
  split at h
  · cases h
  · rename_i heq
    rw [Option.some.injEq, Prod.mk.injEq] at h
    obtain ⟨h1, h2⟩ := h
    subst h1
    exact ⟨fun hk => heq hk, fun c hc => List.mem_takeWhile_imp hc⟩

/-- A successful parameter match captures a nonempty word-character key and
a nonempty value free of double quotes. -/
theorem tryParamAt_spec (l k v r : List Char)
    (h : tryParamAt l = some (k, v, r)) :
    (¬ k = [] ∧ ∀ c ∈ k, isWordChar c = true)
    ∧ (¬ v = [] ∧ ∀ c ∈ v, ¬ c = '"') := by
  unfold tryParamAt at h
  cases h1 : takeRun isWordChar l with
  | none => rw [h1] at h; cases h
  | some kr =>
    obtain ⟨k1, r1⟩ := kr
    rw [h1] at h
    rcases r1 with _ | ⟨c1, _ | ⟨c2, r2⟩⟩
    · cases h
    · cases h
    · simp only at h
      by_cases hc : c1 = '=' && c2 = '"'
      · rw [if_pos hc] at h
        cases h2 : takeRun (fun c => !(c = '"')) r2 with
        | none => rw [h2] at h; cases h
        | some vr =>
          obtain ⟨v1, r3⟩ := vr
          rw [h2] at h
          rcases r3 with _ | ⟨c3, r4⟩
          · cases h
          · simp only at h
            by_cases hc3 : c3 = '"'
            · rw [if_pos hc3] at h
              rw [Option.some.injEq, Prod.mk.injEq, Prod.mk.injEq] at h
              obtain ⟨hk, hv, hr⟩ := h
              have s1 := takeRun_spec isWordChar l k1 (c1 :: c2 :: r2) h1
              have s2 := takeRun_spec (fun c => !(c = '"')) r2 v1 (c3 :: r4) h2
              rw [← hk, ← hv]
              refine ⟨⟨s1.1, s1.2⟩, ⟨s2.1, ?_⟩⟩
              intro c hcm
              simpa using s2.2 c hcm
            · rw [if_neg hc3] at h; cases h
      · rw [if_neg hc] at h; cases h

/-- Every key and value pair emitted by the parameter scan satisfies the
shape enforced by tryParamAt, whatever the fuel. -/
theorem parseParamsAux_mem (fuel : Nat) (l k v : List Char)
    (h : (k, v) ∈ parseParamsAux fuel l) :
    (¬ k = [] ∧ ∀ c ∈ k, isWordChar c = true)
    ∧ (¬ v = [] ∧ ∀ c ∈ v, ¬ c = '"') := by
  induction fuel generalizing l with
  | zero => simp [parseParamsAux] at h
  | succ f ih =>
    cases l with
    | nil => simp [parseParamsAux] at h
    | cons c cs =>
      cases htry : tryParamAt (c :: cs) with
      | none =>
        simp only [parseParamsAux, htry] at h
        exact ih cs h
      | some kvr =>
        obtain ⟨k1, v1, rest⟩ := kvr
        simp only [parseParamsAux, htry] at h
        rcases List.mem_cons.mp h with heq | hmem
        · injection heq with hk hv
          subst hk
          subst hv
          exact tryParamAt_spec (c :: cs) k v rest htry
        · exact ih rest hmem

/-- C9 (confirmed). In tool-call argument parsing, only parameters of the
exact shape word-key equals quoted nonempty string are captured: every
captured key is a nonempty run of word characters and every captured value
is nonempty and quote-free; in particular a parameter written with an empty
quoted value is silently omitted, both from the raw capture list and from
the argument mapping passed to the tool. -/
theorem C9_empty_value_omitted (l k v : List Char)
    (h : (k, v) ∈ parseParams l) :
    ((¬ k = [] ∧ ∀ c ∈ k, isWordChar c = true) ∧ (¬ v = [] ∧ ∀ c ∈ v, ¬ c = '"'))
    ∧ parseParams ("city=\"\"").data = []
    ∧ paramsObj (parseParams ("a=\"x\" b=\"\"").data) = [("a", "x")] :=
  ⟨parseParamsAux_mem l.length l k v h, by decide, by decide⟩

/-- Witness for C9 at a concrete capture: parsing the text a equals quoted x
captures the pair (a, x), whose key and value satisfy the shape property. -/
theorem C9_empty_value_omitted_witness :
    ((¬ ['a'] = [] ∧ ∀ c ∈ ['a'], isWordChar c = true)
      ∧ (¬ ['x'] = [] ∧ ∀ c ∈ ['x'], ¬ c = '"'))
    ∧ parseParams ("city=\"\"").data = []
    ∧ paramsObj (parseParams ("a=\"x\" b=\"\"").data) = [("a", "x")] :=
  C9_empty_value_omitted ("a=\"x\"").data ['a'] ['x'] (by decide)

/-- C6 counterexample. A model output containing the two tool-call
expressions for Paris and Rome as bare text (not wrapped in tool_code fenced
blocks) is not detected at all: no block is extracted, the orchestration
returns null, and no two-entry trace exists. -/
theorem C6_counterexample :
    executeToolsFromResponse respBare [("get_weather", fun _ => "sunny")]
        "Weather in two cities?" (fun _ => Except.ok "done") true = none
    ∧ toolCallsOf respBare = []
    ∧ ¬ (∃ res, executeToolsFromResponse respBare [("get_weather", fun _ => "sunny")]
          "Weather in two cities?" (fun _ => Except.ok "done") true = some res
          ∧ res.toolsUsed.length = 2) := by
  have hn : executeToolsFromResponse respBare [("get_weather", fun _ => "sunny")]
      "Weather in two cities?" (fun _ => Except.ok "done") true = none := by decide
  refine ⟨hn, by decide, ?_⟩
  rintro ⟨res, hres, -⟩
  rw [hn] at hres
  cases hres

/-- C6 (amended). Tool-call expressions are detected only inside tool_code
fenced blocks, one call expression per block; for a model output carrying
the Paris call and then the Rome call in two such blocks, both are executed
in textual order and the trace holds exactly two entries with the matching
tool name and parsed key and value arguments, whatever the tool behaviour f
and the synthesis outcome. -/
theorem C6_two_fenced_calls (f : List (String × String) → String)
    (synth : String → Except Unit String) :
    (executeToolsFromResponse respPR [("get_weather", f)] "Weather in two cities?"
        synth true).map OrchResult.toolsUsed
      = some [⟨"get_weather", TInput.params [("city", "Paris")], f [("city", "Paris")]⟩,
              ⟨"get_weather", TInput.params [("city", "Rome")], f [("city", "Rome")]⟩] := rfl

/-- C7 (confirmed). When the follow-up model call issued after tool execution
fails, the orchestration turn still succeeds: executeToolsFromResponse
returns the raw first-stage output as the response together with the
complete trace of every executed tool, and processMessage wraps that
fallback in a success result that keeps the whole trace. -/
theorem C7_synthesis_failure_keeps_trace (resp msg : String) (tools : ToolList)
    (h : ¬ toolCallsOf resp = []) :
    executeToolsFromResponse resp tools msg (fun _ => Except.error ()) true
      = some { response := resp,
               toolsUsed := (runCalls tools (toolCallsOf resp)).1,
               reasoning := ["Executed "
                 ++ toString (runCalls tools (toolCallsOf resp)).1.length
                 ++ " tool(s) but LLM processing failed"] }
    ∧ ∀ (agents : List String) (provider : String) (steps : List Step),
        agents.contains provider = true →
        processMessage agents provider msg (Except.ok ⟨resp, steps⟩) tools true
            (fun _ => Except.error ())
          = { success := true, response := some resp, error := none,
              reasoning := some (RTrace.strs ["Executed "
                ++ toString (runCalls tools (toolCallsOf resp)).1.length
                ++ " tool(s) but LLM processing failed"]),
              toolsUsed := some (runCalls tools (toolCallsOf resp)).1,
              provider := provider } := by
  have hex : executeToolsFromResponse resp tools msg (fun _ => Except.error ()) true
      = some { response := resp,
               toolsUsed := (runCalls tools (toolCallsOf resp)).1,
               reasoning := ["Executed "
                 ++ toString (runCalls tools (toolCallsOf resp)).1.length
                 ++ " tool(s) but LLM processing failed"] } := by
    unfold executeToolsFromResponse
    rw [if_neg h, if_neg (by simp : ¬ (true = false))]
  refine ⟨hex, ?_⟩
  intro agents provider steps hcont
  unfold processMessage
  rw [if_pos hcont]
  simp only [hex]

/-- Witness for C7 at the concrete two-block Paris and Rome output with a
concrete tool and an always-failing synthesis call. -/
theorem C7_synthesis_failure_keeps_trace_witness :
    executeToolsFromResponse respPR [("get_weather", fun _ => "sunny")]
        "Weather in two cities?" (fun _ => Except.error ()) true
      = some { response := respPR,
               toolsUsed := (runCalls [("get_weather", fun _ => "sunny")]
                 (toolCallsOf respPR)).1,
               reasoning := ["Executed "
                 ++ toString (runCalls [("get_weather", fun _ => "sunny")]
                   (toolCallsOf respPR)).1.length
                 ++ " tool(s) but LLM processing failed"] } :=
  (C7_synthesis_failure_keeps_trace respPR "Weather in two cities?"
    [("get_weather", fun _ => "sunny")] (by decide)).1

/-- C10 (confirmed). When no agents have been initialised (the agents map is
empty), processMessage returns, for every requested provider, the successful
demo result: success true, the demo-mode response text, provider demo, and
empty toolsUsed and reasoning arrays — it does not fail with an
agent-not-available error. -/
theorem C10_demo_mode (provider message : String) (io : Except String AgentOut)
    (tools : ToolList) (hm : Bool) (synth : String → Except Unit String) :
    processMessage [] provider message io tools hm synth = demoResult message
    ∧ (demoResult message).success = true
    ∧ (demoResult message).provider = "demo"
    ∧ (demoResult message).toolsUsed = some []
    ∧ (demoResult message).reasoning = some (RTrace.strs [])
    ∧ (demoResult message).response = some (demoText message)
    ∧ (demoResult message).error = none := by
  refine ⟨?_, rfl, rfl, rfl, rfl, rfl, rfl⟩
  rfl
